import Mathlib

/-
Verification of the size-hint arithmetic module (src/size_hint.rs):
pure functions combining iterator size hints, pairs of a lower bound
and an optional upper bound on the number of elements produced.
usize is modelled as a natural number together with the explicit bound
USIZE_MAX; checked and saturating arithmetic are modelled explicitly.
-/

namespace size_hint

/-- The maximum value of usize on a 64-bit platform. -/
def USIZE_MAX : Nat := 2 ^ 64 - 1

/-- SizeHint models the Rust type (usize, Option<usize>), the return type of
Iterator::size_hint. -/
abbrev SizeHint := Nat × Option Nat

/-- Model of usize::checked_add: the sum when representable, none on
overflow. -/
def checked_add (a b : Nat) : Option Nat :=
  if a + b ≤ USIZE_MAX then some (a + b) else none

/-- Model of usize::checked_mul: the product when representable, none on
overflow. -/
def checked_mul (a b : Nat) : Option Nat :=
  if a * b ≤ USIZE_MAX then some (a * b) else none

/-- Model of usize::saturating_add: the sum clamped to USIZE_MAX. -/
def saturating_add (a b : Nat) : Nat := Nat.min (a + b) USIZE_MAX

/-- Embedding of add_scalar: add x to a SizeHint, saturating the lower
bound and using checked addition on the upper bound. -/
def add_scalar (sh : SizeHint) (x : Nat) : SizeHint :=
  (saturating_add sh.1 x, sh.2.bind (fun elt => checked_add elt x))

/-- Embedding of add: add two SizeHints componentwise, lower bound
saturating via unwrap_or(usize::MAX), upper bound present only when both
are present and the checked sum does not overflow. -/
def add (a b : SizeHint) : SizeHint :=
  ((checked_add a.1 b.1).getD USIZE_MAX,
    match a.2, b.2 with
    | some x, some y => checked_add x y
    | _, _ => none)

/-- Embedding of mul_scalar: multiply a SizeHint by x; the lower bound
saturates to USIZE_MAX on overflow, and the upper bound is forced to
some 0 when x = 0, otherwise computed by checked multiplication. -/
def mul_scalar (sh : SizeHint) (x : Nat) : SizeHint :=
  ((checked_mul sh.1 x).getD USIZE_MAX,
    if x = 0 then some 0
    else sh.2.bind (fun elt => checked_mul elt x))

/-- Embedding of mul: multiply two SizeHints; lower bounds multiply with
saturation; upper bounds multiply checked when both present, collapse to
some 0 when one side is some 0 and the other absent, and are absent in
every other case. -/
def mul (a b : SizeHint) : SizeHint :=
  ((checked_mul a.1 b.1).getD USIZE_MAX,
    match a.2, b.2 with
    | some x, some y => checked_mul x y
    | some 0, none => some 0
    | none, some 0 => some 0
    | _, _ => none)

/-- Embedding of max: componentwise maximum, the upper bound present only
when both inputs have one. -/
def max (a b : SizeHint) : SizeHint :=
  (Nat.max a.1 b.1,
    match a.2, b.2 with
    | some x, some y => some (Nat.max x y)
    | _, _ => none)

/-- Embedding of min: componentwise minimum; in the mixed presence case the
upper bound is a_upper.or(b_upper), that is, whichever side is present. -/
def min (a b : SizeHint) : SizeHint :=
  (Nat.min a.1 b.1,
    match a.2, b.2 with
    | some u1, some u2 => some (Nat.min u1 u2)
    | au, bu => au.or bu)

/-- A SizeHint lies in the representable range of usize. -/
def inRange : SizeHint → Prop
  | (lo, none) => lo ≤ USIZE_MAX
  | (lo, some u) => lo ≤ USIZE_MAX ∧ u ≤ USIZE_MAX

instance instDecidableInRange : (sh : SizeHint) → Decidable (inRange sh)
  | (lo, none) => inferInstanceAs (Decidable (lo ≤ USIZE_MAX))
  | (lo, some u) => inferInstanceAs (Decidable (lo ≤ USIZE_MAX ∧ u ≤ USIZE_MAX))

/-- The validity invariant of a SizeHint: whenever the upper bound is
present, the lower bound does not exceed it. -/
def valid : SizeHint → Prop
  | (_, none) => True
  | (lo, some u) => lo ≤ u

instance instDecidableValid : (sh : SizeHint) → Decidable (valid sh)
  | (_, none) => inferInstanceAs (Decidable True)
  | (lo, some u) => inferInstanceAs (Decidable (lo ≤ u))

end size_hint

namespace size_hint

/-- Claim C1: for every pair of bound pairs a and b, the upper of min a b is
the minimum of the two uppers when both are present; when exactly one upper
is present, it is that present value; when both are absent, it is absent;
and in every case the lower of min a b is the minimum of the two lowers. -/
theorem C1_min_components (a b : SizeHint) :
    (size_hint.min a b).1 = Nat.min a.1 b.1 ∧
    (∀ x y, a.2 = some x → b.2 = some y →
      (size_hint.min a b).2 = some (Nat.min x y)) ∧
    (∀ x, a.2 = some x → b.2 = none → (size_hint.min a b).2 = some x) ∧
    (∀ y, a.2 = none → b.2 = some y → (size_hint.min a b).2 = some y) ∧
    (a.2 = none → b.2 = none → (size_hint.min a b).2 = none) := by
  obtain ⟨al, au⟩ := a
  obtain ⟨bl, bu⟩ := b
  cases au <;> cases bu <;> simp [size_hint.min, Option.or]

/-- Witness for C1 at concrete inputs, exercising the hypotheses of both
mixed presence cases. -/
theorem C1_min_components_witness :
    (size_hint.min (3, some 7) (5, none)).2 = some 7 ∧
    (size_hint.min (4, none) (6, some 9)).2 = some 9 :=
  ⟨(C1_min_components (3, some 7) (5, none)).2.2.1 7 rfl rfl,
   (C1_min_components (4, none) (6, some 9)).2.2.2.1 9 rfl rfl⟩

/-- Claim C2: the upper of mul a b is the checked product when both uppers
are present; it is exactly some 0 when one upper is some 0 and the other is
absent; it is absent in every other mixed presence case and when both are
absent; and the concrete case mul (3, none) (0, some 0) = (0, some 0). -/
theorem C2_mul_upper (a b : SizeHint) :
    (∀ x y, a.2 = some x → b.2 = some y →
      (size_hint.mul a b).2 = checked_mul x y) ∧
    (a.2 = some 0 → b.2 = none → (size_hint.mul a b).2 = some 0) ∧
    (a.2 = none → b.2 = some 0 → (size_hint.mul a b).2 = some 0) ∧
    (∀ x, a.2 = some x → x ≠ 0 → b.2 = none → (size_hint.mul a b).2 = none) ∧
    (∀ y, a.2 = none → b.2 = some y → y ≠ 0 → (size_hint.mul a b).2 = none) ∧
    (a.2 = none → b.2 = none → (size_hint.mul a b).2 = none) ∧
    size_hint.mul (3, none) (0, some 0) = (0, some 0) := by
  obtain ⟨al, au⟩ := a
  obtain ⟨bl, bu⟩ := b
  refine ⟨?_, ?_, ?_, ?_, ?_, ?_, by decide⟩
  · intro x y hx hy
    simp only at hx hy
    subst hx; subst hy
    simp [size_hint.mul]
  · intro hx hy
    simp only at hx hy
    subst hx; subst hy
    simp [size_hint.mul]
  · intro hx hy
    simp only at hx hy
    subst hx; subst hy
    simp [size_hint.mul]
  · intro x hx hne hy
    simp only at hx hy
    subst hx; subst hy
    match x, hne with
    | Nat.succ n, _ => simp [size_hint.mul]
  · intro y hx hy hne
    simp only at hx hy
    subst hx; subst hy
    match y, hne with
    | Nat.succ n, _ => simp [size_hint.mul]
  · intro hx hy
    simp only at hx hy
    subst hx; subst hy
    simp [size_hint.mul]

/-- Witness for C2 at concrete inputs, exercising the both-present case and
the zero-and-absent case. -/
theorem C2_mul_upper_witness :
    (size_hint.mul (2, some 3) (4, some 5)).2 = checked_mul 3 5 ∧
    (size_hint.mul (1, some 0) (7, none)).2 = some 0 :=
  ⟨(C2_mul_upper (2, some 3) (4, some 5)).1 3 5 rfl rfl,
   (C2_mul_upper (1, some 0) (7, none)).2.1 rfl rfl⟩

/-- Claim C3: multiplying any bound pair by the scalar 0 yields an upper
bound of exactly some 0, whatever the input upper bound was. -/
theorem C3_mul_scalar_zero_upper (sh : SizeHint) :
    (mul_scalar sh 0).2 = some 0 := by
  simp [mul_scalar]

/-- Claim C4: the lower of add a b is the sum of the lowers when it does not
exceed USIZE_MAX and is USIZE_MAX otherwise; the upper is absent when either
input upper is absent, and otherwise is the checked sum: the sum when
representable, absent on overflow. -/
theorem C4_add_components (a b : SizeHint) :
    (a.1 + b.1 ≤ USIZE_MAX → (add a b).1 = a.1 + b.1) ∧
    (USIZE_MAX < a.1 + b.1 → (add a b).1 = USIZE_MAX) ∧
    (a.2 = none → (add a b).2 = none) ∧
    (b.2 = none → (add a b).2 = none) ∧
    (∀ x y, a.2 = some x → b.2 = some y →
      (x + y ≤ USIZE_MAX → (add a b).2 = some (x + y)) ∧
      (USIZE_MAX < x + y → (add a b).2 = none)) := by
  obtain ⟨al, au⟩ := a
  obtain ⟨bl, bu⟩ := b
  refine ⟨?_, ?_, ?_, ?_, ?_⟩
  · intro h
    simp only [add, checked_add]
    rw [if_pos h]
    rfl
  · intro h
    simp only [add, checked_add]
    rw [if_neg (by omega)]
    rfl
  · intro hx
    simp only at hx
    subst hx
    cases bu <;> simp [add]
  · intro hy
    simp only at hy
    subst hy
    cases au <;> simp [add]
  · intro x y hx hy
    simp only at hx hy
    subst hx; subst hy
    constructor
    · intro h
      simp only [add, checked_add]
      rw [if_pos h]
    · intro h
      simp only [add, checked_add]
      rw [if_neg (by omega)]

/-- Witness for C4 at concrete inputs: the no-overflow lower case and the
both-present upper case. -/
theorem C4_add_components_witness :
    (3 + 4 ≤ USIZE_MAX ∧ (add (3, some 5) (4, some 6)).1 = 3 + 4) ∧
    (add (3, some 5) (4, some 6)).2 = some (5 + 6) := by
  have h := C4_add_components (3, some 5) (4, some 6)
  exact ⟨⟨by decide, h.1 (by decide)⟩,
    (h.2.2.2.2 5 6 rfl rfl).1 (by decide)⟩

/-- Claim C5: add_scalar adds x to the lower bound saturating at USIZE_MAX,
keeps an absent upper bound absent, and adds x to a present upper bound by
checked addition, becoming absent rather than clamped on overflow. -/
theorem C5_add_scalar_components (sh : SizeHint) (x : Nat) :
    (sh.1 + x ≤ USIZE_MAX → (add_scalar sh x).1 = sh.1 + x) ∧
    (USIZE_MAX < sh.1 + x → (add_scalar sh x).1 = USIZE_MAX) ∧
    (sh.2 = none → (add_scalar sh x).2 = none) ∧
    (∀ u, sh.2 = some u →
      (u + x ≤ USIZE_MAX → (add_scalar sh x).2 = some (u + x)) ∧
      (USIZE_MAX < u + x → (add_scalar sh x).2 = none)) := by
  obtain ⟨lo, hi⟩ := sh
  refine ⟨?_, ?_, ?_, ?_⟩
  · intro h
    simp only [add_scalar, saturating_add]
    exact Nat.min_eq_left h
  · intro h
    simp only [add_scalar, saturating_add]
    exact Nat.min_eq_right (Nat.le_of_lt h)
  · intro hx
    simp only at hx
    subst hx
    simp [add_scalar]
  · intro u hu
    simp only at hu
    subst hu
    constructor
    · intro h
      simp only [add_scalar, Option.bind, checked_add]
      rw [if_pos h]
    · intro h
      simp only [add_scalar, Option.bind, checked_add]
      rw [if_neg (by omega)]

/-- Witness for C5 at concrete inputs: no-overflow lower and present upper. -/
theorem C5_add_scalar_components_witness :
    (2 + 9 ≤ USIZE_MAX ∧ (add_scalar (2, some 6) 9).1 = 2 + 9) ∧
    (add_scalar (2, some 6) 9).2 = some (6 + 9) := by
  have h := C5_add_scalar_components (2, some 6) 9
  exact ⟨⟨by decide, h.1 (by decide)⟩, (h.2.2.2 6 rfl).1 (by decide)⟩

lemma checked_add_inRange (a b : Nat) :
    ∀ v, checked_add a b = some v → v ≤ USIZE_MAX := by
  intro v hv
  unfold checked_add at hv
  split at hv
  · cases hv; assumption
  · cases hv

lemma checked_mul_inRange (a b : Nat) :
    ∀ v, checked_mul a b = some v → v ≤ USIZE_MAX := by
  intro v hv
  unfold checked_mul at hv
  split at hv
  · cases hv; assumption
  · cases hv

lemma getD_checked_add_le (a b : Nat) :
    (checked_add a b).getD USIZE_MAX ≤ USIZE_MAX := by
  unfold checked_add
  split <;> simp_all

lemma getD_checked_mul_le (a b : Nat) :
    (checked_mul a b).getD USIZE_MAX ≤ USIZE_MAX := by
  unfold checked_mul
  split <;> simp_all

lemma inRange_add_scalar (sh : SizeHint) (x : Nat) :
    inRange (add_scalar sh x) := by
  obtain ⟨lo, hi⟩ := sh
  cases hi with
  | none => exact Nat.min_le_right _ _
  | some u =>
    have hlow : saturating_add lo x ≤ USIZE_MAX := Nat.min_le_right _ _
    simp only [add_scalar, Option.bind]
    cases hc : checked_add u x with
    | none => exact hlow
    | some v => exact ⟨hlow, checked_add_inRange u x v hc⟩

lemma inRange_add (a b : SizeHint) : inRange (add a b) := by
  obtain ⟨al, au⟩ := a
  obtain ⟨bl, bu⟩ := b
  have hlow := getD_checked_add_le al bl
  cases au <;> cases bu <;> simp only [add] <;> try exact hlow
  rename_i x y
  cases hc : checked_add x y with
  | none => exact hlow
  | some v => exact ⟨hlow, checked_add_inRange x y v hc⟩

lemma inRange_mul_scalar (sh : SizeHint) (x : Nat) :
    inRange (mul_scalar sh x) := by
  obtain ⟨lo, hi⟩ := sh
  have hlow := getD_checked_mul_le lo x
  by_cases hx : x = 0
  · subst hx
    simp only [mul_scalar, if_pos rfl]
    exact ⟨hlow, Nat.zero_le _⟩
  · simp only [mul_scalar, if_neg hx]
    cases hi with
    | none => exact hlow
    | some u =>
      show inRange ((checked_mul lo x).getD USIZE_MAX, checked_mul u x)
      cases hc : checked_mul u x with
      | none => exact hlow
      | some v => exact ⟨hlow, checked_mul_inRange u x v hc⟩

lemma inRange_mul (a b : SizeHint) : inRange (mul a b) := by
  obtain ⟨al, au⟩ := a
  obtain ⟨bl, bu⟩ := b
  have hlow := getD_checked_mul_le al bl
  rcases au with _ | x <;> rcases bu with _ | y
  · exact hlow
  · rcases y with _ | y
    · exact ⟨hlow, Nat.zero_le _⟩
    · exact hlow
  · rcases x with _ | x
    · exact ⟨hlow, Nat.zero_le _⟩
    · exact hlow
  · simp only [mul]
    cases hc : checked_mul x y with
    | none => exact hlow
    | some v => exact ⟨hlow, checked_mul_inRange x y v hc⟩

lemma inRange_max (a b : SizeHint) (ha : inRange a) (hb : inRange b) :
    inRange (size_hint.max a b) := by
  obtain ⟨al, au⟩ := a
  obtain ⟨bl, bu⟩ := b
  rcases au with _ | x <;> rcases bu with _ | y
  · exact Nat.max_le.mpr ⟨ha, hb⟩
  · exact Nat.max_le.mpr ⟨ha, hb.1⟩
  · exact Nat.max_le.mpr ⟨ha.1, hb⟩
  · exact ⟨Nat.max_le.mpr ⟨ha.1, hb.1⟩, Nat.max_le.mpr ⟨ha.2, hb.2⟩⟩

lemma inRange_min (a b : SizeHint) (ha : inRange a) (hb : inRange b) :
    inRange (size_hint.min a b) := by
  obtain ⟨al, au⟩ := a
  obtain ⟨bl, bu⟩ := b
  rcases au with _ | x <;> rcases bu with _ | y
  · exact Nat.le_trans (Nat.min_le_left _ _) ha
  · exact ⟨Nat.le_trans (Nat.min_le_left _ _) ha, hb.2⟩
  · exact ⟨Nat.le_trans (Nat.min_le_right _ _) hb, ha.2⟩
  · exact ⟨Nat.le_trans (Nat.min_le_left _ _) ha.1,
      Nat.le_trans (Nat.min_le_left _ _) ha.2⟩

/-- Claim C6: all six functions are total and overflow-safe; in the
embedding, totality holds by construction, and the residual content is that
for inputs in the usize range, including USIZE_MAX itself, every function
returns a bound pair whose components are again in the usize range, with no
wrapping behavior. -/
theorem C6_total_in_range (a b sh : SizeHint) (x : Nat)
    (ha : inRange a) (hb : inRange b) (hsh : inRange sh)
    (hx : x ≤ USIZE_MAX) :
    inRange (add_scalar sh x) ∧ inRange (add a b) ∧
    inRange (mul_scalar sh x) ∧ inRange (mul a b) ∧
    inRange (size_hint.max a b) ∧ inRange (size_hint.min a b) :=
  ⟨inRange_add_scalar sh x, inRange_add a b, inRange_mul_scalar sh x,
   inRange_mul a b, inRange_max a b ha hb, inRange_min a b ha hb⟩

/-- Witness for C6 at concrete inputs including USIZE_MAX itself. -/
theorem C6_total_in_range_witness :
    inRange (add_scalar (0, some USIZE_MAX) USIZE_MAX) ∧
    inRange (add (USIZE_MAX, some USIZE_MAX) (1, none)) ∧
    inRange (mul_scalar (0, some USIZE_MAX) USIZE_MAX) ∧
    inRange (mul (USIZE_MAX, some USIZE_MAX) (1, none)) ∧
    inRange (size_hint.max (USIZE_MAX, some USIZE_MAX) (1, none)) ∧
    inRange (size_hint.min (USIZE_MAX, some USIZE_MAX) (1, none)) :=
  C6_total_in_range (USIZE_MAX, some USIZE_MAX) (1, none)
    (0, some USIZE_MAX) USIZE_MAX (by decide) (by decide) (by decide)
    (by decide)

/-- Claim C7: add, mul, max and min are all commutative. -/
theorem C7_commutative (a b : SizeHint) :
    add a b = add b a ∧ mul a b = mul b a ∧
    size_hint.max a b = size_hint.max b a ∧
    size_hint.min a b = size_hint.min b a := by
  obtain ⟨al, au⟩ := a
  obtain ⟨bl, bu⟩ := b
  refine ⟨?_, ?_, ?_, ?_⟩
  · rcases au with _ | x <;> rcases bu with _ | y <;>
      simp [add, checked_add, Nat.add_comm]
  · rcases au with _ | x <;> rcases bu with _ | y
    · simp [mul, checked_mul, Nat.mul_comm]
    · rcases y with _ | y <;> simp [mul, checked_mul, Nat.mul_comm]
    · rcases x with _ | x <;> simp [mul, checked_mul, Nat.mul_comm]
    · simp [mul, checked_mul, Nat.mul_comm]
  · rcases au with _ | x <;> rcases bu with _ | y <;>
      simp [size_hint.max, Nat.max_comm]
  · rcases au with _ | x <;> rcases bu with _ | y <;>
      simp [size_hint.min, Option.or, Nat.min_comm]

/-- Claim C8: identity laws: multiplying by the scalar 1 and adding the
scalar 0 both return the input pair unchanged, for every pair whose
components are representable usize values. -/
theorem C8_identity (sh : SizeHint) (h : inRange sh) :
    mul_scalar sh 1 = sh ∧ add_scalar sh 0 = sh := by
  obtain ⟨lo, hi⟩ := sh
  cases hi with
  | none =>
    constructor
    · simp [mul_scalar, checked_mul, Nat.le_of_eq rfl |>.trans h |> if_pos]
    · simp [add_scalar, saturating_add, Nat.min_eq_left h]
  | some u =>
    obtain ⟨hlo, hu⟩ := h
    constructor
    · simp [mul_scalar, checked_mul, Option.bind, if_pos hlo, if_pos hu]
    · simp [add_scalar, saturating_add, Nat.min_eq_left hlo, checked_add,
        Option.bind, if_pos hu]

/-- Witness for C8 at a concrete input. -/
theorem C8_identity_witness :
    mul_scalar (3, some 5) 1 = (3, some 5) ∧
    add_scalar (3, some 5) 0 = (3, some 5) :=
  C8_identity (3, some 5) (by decide)

/-- Claim C9: the lower of max a b dominates both input lowers, and the
lower of min a b is dominated by both input lowers. -/
theorem C9_max_min_lower (a b : SizeHint) :
    a.1 ≤ (size_hint.max a b).1 ∧ b.1 ≤ (size_hint.max a b).1 ∧
    (size_hint.min a b).1 ≤ a.1 ∧ (size_hint.min a b).1 ≤ b.1 :=
  ⟨Nat.le_max_left a.1 b.1, Nat.le_max_right a.1 b.1,
   Nat.min_le_left a.1 b.1, Nat.min_le_right a.1 b.1⟩

lemma valid_add_scalar (sh : SizeHint) (x : Nat) (h : valid sh) :
    valid (add_scalar sh x) := by
  obtain ⟨lo, hi⟩ := sh
  cases hi with
  | none => trivial
  | some u =>
    show valid (saturating_add lo x, checked_add u x)
    cases hc : checked_add u x with
    | none => trivial
    | some v =>
      have hv : v = u + x := by
        unfold checked_add at hc
        split at hc
        · cases hc; rfl
        · cases hc
      subst hv
      show saturating_add lo x ≤ u + x
      have hlo : lo ≤ u := h
      exact Nat.le_trans (Nat.min_le_left _ _) (Nat.add_le_add_right hlo x)

lemma valid_add (a b : SizeHint) (ha : valid a) (hb : valid b) :
    valid (add a b) := by
  obtain ⟨al, au⟩ := a
  obtain ⟨bl, bu⟩ := b
  rcases au with _ | x <;> rcases bu with _ | y <;> try trivial
  show valid ((checked_add al bl).getD USIZE_MAX, checked_add x y)
  cases hc : checked_add x y with
  | none => trivial
  | some v =>
    have hx : al ≤ x := ha
    have hy : bl ≤ y := hb
    have hv : x + y ≤ USIZE_MAX ∧ v = x + y := by
      unfold checked_add at hc
      split at hc
      · cases hc; exact ⟨by assumption, rfl⟩
      · cases hc
    show (checked_add al bl).getD USIZE_MAX ≤ v
    unfold checked_add
    rw [if_pos (by omega)]
    simp only [Option.getD_some]
    omega

lemma valid_mul_scalar (sh : SizeHint) (x : Nat) (h : valid sh) :
    valid (mul_scalar sh x) := by
  obtain ⟨lo, hi⟩ := sh
  by_cases hx : x = 0
  · subst hx
    show (checked_mul lo 0).getD USIZE_MAX ≤ 0
    simp [checked_mul]
  · simp only [mul_scalar, if_neg hx]
    cases hi with
    | none => trivial
    | some u =>
      show valid ((checked_mul lo x).getD USIZE_MAX, checked_mul u x)
      cases hc : checked_mul u x with
      | none => trivial
      | some v =>
        have hv : u * x ≤ USIZE_MAX ∧ v = u * x := by
          unfold checked_mul at hc
          split at hc
          · cases hc; exact ⟨by assumption, rfl⟩
          · cases hc
        have hlo : lo ≤ u := h
        have hmul : lo * x ≤ u * x := Nat.mul_le_mul_right x hlo
        show (checked_mul lo x).getD USIZE_MAX ≤ v
        unfold checked_mul
        rw [if_pos (by omega)]
        simp only [Option.getD_some]
        omega

lemma valid_mul (a b : SizeHint) (ha : valid a) (hb : valid b) :
    valid (mul a b) := by
  obtain ⟨al, au⟩ := a
  obtain ⟨bl, bu⟩ := b
  rcases au with _ | x <;> rcases bu with _ | y
  · trivial
  · rcases y with _ | y
    · have hbl : bl = 0 := Nat.le_zero.mp hb
      subst hbl
      show (checked_mul al 0).getD USIZE_MAX ≤ 0
      simp [checked_mul]
    · trivial
  · rcases x with _ | x
    · have hal : al = 0 := Nat.le_zero.mp ha
      subst hal
      show (checked_mul 0 bl).getD USIZE_MAX ≤ 0
      simp [checked_mul]
    · trivial
  · have hm : mul (al, some x) (bl, some y) =
        ((checked_mul al bl).getD USIZE_MAX, checked_mul x y) := by
      simp [mul]
    rw [hm]
    cases hc : checked_mul x y with
    | none => trivial
    | some v =>
      have hv : x * y ≤ USIZE_MAX ∧ v = x * y := by
        unfold checked_mul at hc
        split at hc
        · cases hc; exact ⟨by assumption, rfl⟩
        · cases hc
      have hxa : al ≤ x := ha
      have hyb : bl ≤ y := hb
      have hmul : al * bl ≤ x * y := Nat.mul_le_mul hxa hyb
      show (checked_mul al bl).getD USIZE_MAX ≤ v
      unfold checked_mul
      rw [if_pos (by omega)]
      simp only [Option.getD_some]
      omega

lemma valid_max (a b : SizeHint) (ha : valid a) (hb : valid b) :
    valid (size_hint.max a b) := by
  obtain ⟨al, au⟩ := a
  obtain ⟨bl, bu⟩ := b
  rcases au with _ | x <;> rcases bu with _ | y <;> try trivial
  exact Nat.max_le.mpr ⟨Nat.le_trans ha (Nat.le_max_left x y),
    Nat.le_trans hb (Nat.le_max_right x y)⟩

lemma valid_min (a b : SizeHint) (ha : valid a) (hb : valid b) :
    valid (size_hint.min a b) := by
  obtain ⟨al, au⟩ := a
  obtain ⟨bl, bu⟩ := b
  rcases au with _ | x <;> rcases bu with _ | y
  · trivial
  · exact Nat.le_trans (Nat.min_le_right _ _) hb
  · exact Nat.le_trans (Nat.min_le_left _ _) ha
  · exact Nat.le_min.mpr ⟨Nat.le_trans (Nat.min_le_left al bl) ha,
      Nat.le_trans (Nat.min_le_right al bl) hb⟩

/-- Claim C10: every operation preserves the validity invariant: if each
input pair has lower at most upper whenever its upper is present, then so
does the result, for all six functions and any scalar x. -/
theorem C10_valid_preserved (a b sh : SizeHint) (x : Nat)
    (ha : valid a) (hb : valid b) (hsh : valid sh) :
    valid (add_scalar sh x) ∧ valid (add a b) ∧
    valid (mul_scalar sh x) ∧ valid (mul a b) ∧
    valid (size_hint.max a b) ∧ valid (size_hint.min a b) :=
  ⟨valid_add_scalar sh x hsh, valid_add a b ha hb,
   valid_mul_scalar sh x hsh, valid_mul a b ha hb,
   valid_max a b ha hb, valid_min a b ha hb⟩

/-- Witness for C10 at concrete valid inputs. -/
theorem C10_valid_preserved_witness :
    valid (add_scalar (1, some 4) 6) ∧ valid (add (2, some 3) (5, some 8)) ∧
    valid (mul_scalar (1, some 4) 6) ∧ valid (mul (2, some 3) (5, some 8)) ∧
    valid (size_hint.max (2, some 3) (5, some 8)) ∧
    valid (size_hint.min (2, some 3) (5, some 8)) :=
  C10_valid_preserved (2, some 3) (5, some 8) (1, some 4) 6
    (by decide) (by decide) (by decide)

end size_hint
